import Mathlib

/-!
Shallow embedding of the query-routing core of the chatbot backend
(intent classification, response merging, caching, rate limiting),
translated from the JavaScript sources, together with theorems settling
the specification claims about those components.

Conventions used throughout:
* JS numbers that hold integral millisecond timestamps, counters and sizes
  are modelled as `Nat`; fractional scores and confidences are modelled as
  `Rat` (the float computations of the source only ever compare values that
  are far apart, so exact rational arithmetic is order-faithful).
* JS `Map` objects are modelled as insertion-ordered association lists.
* Code that can throw is modelled with `Except`; `JsError.typeError` stands
  for a TypeError raised by a strict-mode violation.
-/

-- The Batteries rational-number operations are `@[irreducible]`, which
-- blocks `decide`-style evaluation of the embedded functions on concrete
-- inputs; restore the default reducibility for this development.
attribute [local semireducible] Rat.add Rat.mul Rat.sub Rat.inv Rat.ofScientific

namespace ChatCore

/-- Errors the embedded code can raise. -/
inductive JsError where
  | typeError
deriving DecidableEq

/-! ### Association lists (model of JS `Map` insertion-order semantics) -/

/-- `Map.set`: replace the value of an existing key in place, otherwise
append the binding at the end (JS maps preserve insertion order). -/
def setA {α : Type} : List (String × α) → String → α → List (String × α)
  | [], k, v => [(k, v)]
  | (k', v') :: rest, k, v =>
    if k' = k then (k, v) :: rest else (k', v') :: setA rest k v

/-- `Map.delete`: remove every binding of the key (association lists built by
`setA` hold each key at most once, so this agrees with JS `Map.delete`). -/
def delA {α : Type} (l : List (String × α)) (k : String) : List (String × α) :=
  l.filter (fun p => decide (p.1 ≠ k))

theorem lookup_setA_self {α : Type} (l : List (String × α)) (k : String) (v : α) :
    (setA l k v).lookup k = some v := by
  induction l with
  | nil => simp [setA, List.lookup]
  | cons p rest ih =>
    by_cases h : p.1 = k
    · simp [setA, h, List.lookup]
    · have hb : (k == p.1) = false := by
        simp only [beq_eq_false_iff_ne]
        exact fun e => h e.symm
      simp [setA, h, List.lookup, hb, ih]

theorem setA_setA_self {α : Type} (l : List (String × α)) (k : String) (a b : α) :
    setA (setA l k a) k b = setA l k b := by
  induction l with
  | nil => simp [setA]
  | cons p rest ih =>
    by_cases h : p.1 = k
    · simp [setA, h]
    · simp [setA, h, ih]

theorem lookup_delA_self {α : Type} (l : List (String × α)) (k : String) :
    (delA l k).lookup k = none := by
  induction l with
  | nil => simp [delA]
  | cons p rest ih =>
    by_cases h : p.1 = k
    · simpa [delA, List.filter, h] using ih
    · have hb : (k == p.1) = false := by
        simp only [beq_eq_false_iff_ne]
        exact fun e => h e.symm
      simpa [delA, List.filter, h, List.lookup, hb] using ih

/-! ### String helpers mirroring the JS string primitives used by the code -/

/-- ASCII lower-casing, the effect of `String.prototype.toLowerCase` on the
ASCII texts this code handles. -/
def jsToLower (s : String) : String :=
  String.mk (s.toList.map Char.toLower)

/-- Is `pre` an initial segment of `l`? -/
def leadsWith : List Char → List Char → Bool
  | [], _ => true
  | _ :: _, [] => false
  | a :: as, b :: bs => a = b && leadsWith as bs

/-- `String.prototype.includes`: does `hay` contain `needle` as a contiguous
substring? -/
def listIncludes (needle : List Char) : List Char → Bool
  | [] => needle.isEmpty
  | c :: rest => leadsWith needle (c :: rest) || listIncludes needle rest

/-- `hay.includes(needle)` on strings. -/
def strIncludes (hay needle : String) : Bool :=
  listIncludes needle.toList hay.toList

/-! ### Intent detector: keyword tables (`INTENT_PATTERNS` and friends)
from `src/services/intentDetector.js` -/

/-- `INTENT_PATTERNS`: the realtime keyword groups, in source order, as
(`type`, `keywords`) pairs. -/
def INTENT_PATTERNS : List (String × List String) :=
  [ ("weather", ["weather", "temperature", "rain", "snow", "sunny", "cloudy",
                 "forecast", "celsius", "fahrenheit"]),
    ("news", ["news", "headlines", "latest", "breaking", "today",
              "current events", "happening"]),
    ("currency", ["exchange", "rate", "currency", "convert", "dollar", "euro",
                  "pound", "price", "forex"]),
    ("time", ["time", "what time", "current time", "now", "o\x27clock"]) ]

/-- The knowledge-lookup keyword list (`ragKeywords`). -/
def ragKeywords : List String :=
  ["explain", "tell me", "what is", "how does", "describe", "definition",
   "concept", "learn", "understand", "about"]

/-- The conversational keyword list (`generalKeywords`). -/
def generalKeywords : List String :=
  ["hi", "hello", "thanks", "help", "please", "can you", "would you",
   "could you"]

/-- The per-category keyword-match counters (the `scores` object of
`detectIntentRuleBased`). -/
structure RuleScores where
  realtime : Nat
  rag : Nat
  general : Nat
deriving DecidableEq

/-- Result object of `detectIntentRuleBased`. -/
structure RuleResult where
  intent : String
  confidence : Rat
  scores : RuleScores
  subType : Option String
deriving DecidableEq

/-- The total realtime keyword-match count accumulated by the first loop of
`detectIntentRuleBased`. -/
def realtimeScoreOf (msgLower : String) : Nat :=
  (INTENT_PATTERNS.map (fun p => p.2.countP (fun kw => strIncludes msgLower kw))).sum

/-- `ragMatches` of `detectIntentRuleBased`. -/
def ragMatchesOf (msgLower : String) : Nat :=
  ragKeywords.countP (fun kw => strIncludes msgLower kw)

/-- `generalMatches` of `detectIntentRuleBased`. -/
def generalMatchesOf (msgLower : String) : Nat :=
  generalKeywords.countP (fun kw => strIncludes msgLower kw)

/-- `detectIntentRuleBased(message)` from `src/services/intentDetector.js`.

The first loop walks `INTENT_PATTERNS`; for each pattern it counts the
keywords contained in the lower-cased message, adds the count to
`scores.realtime`, and — on the first pattern with a positive count —
executes `message._detectedType = pattern.type`.  `message` is a string
primitive and the module runs in strict mode, so that property write throws
a `TypeError`, aborting the function.  Hence the function returns normally
only when no realtime keyword matches at all, in which case the
accumulated realtime score is `0`. -/
def detectIntentRuleBased (message : String) : Except JsError RuleResult :=
  let msgLower := jsToLower message
  if INTENT_PATTERNS.any (fun p => p.2.any (fun kw => strIncludes msgLower kw)) then
    .error .typeError
  else
    let scores : RuleScores :=
      ⟨realtimeScoreOf msgLower, ragMatchesOf msgLower, generalMatchesOf msgLower⟩
    -- `Math.max(...Object.values(scores))` over [realtime, rag, general]
    let maxScore := max scores.realtime (max scores.rag scores.general)
    let dominantIntent :=
      if scores.realtime = maxScore ∧ 0 < scores.realtime then "realtime"
      else if scores.rag = maxScore ∧ 0 < scores.rag then "rag"
      else "general"
    let confidence : Rat := if 0 < maxScore then min (mkRat (maxScore : Int) 3) 1 else 0
    -- the trailing loop populating `result.type` runs only for a realtime win
    let subType : Option String :=
      if dominantIntent = "realtime" then
        (INTENT_PATTERNS.find? (fun p => p.2.any (fun kw => strIncludes msgLower kw))).map
          Prod.fst
      else none
    .ok ⟨dominantIntent, confidence, scores, subType⟩

/-! ### Feature extraction (`extractFeatures` of `ml/intentModel.js`) -/

/-- JS `\w`: ASCII letters, digits and underscore. -/
def isWordChar (c : Char) : Bool := c.isAlphanum || c = '_'

/-- JS `\s` (the ASCII part): space, tab, newline, carriage return,
vertical tab, form feed. -/
def isSpaceChar (c : Char) : Bool :=
  c = ' ' || c = '\t' || c = '\n' || c = '\r' || c = '\x0b' || c = '\x0c'

/-- Split a character list into its maximal runs of non-whitespace
characters, as strings; this is `split(/\s+/)` followed by the
`filter((w) => w.length > 0)` of the source (which discards the empty
fragments the JS split can produce). -/
def wordsAux : List Char → List Char → List String
  | [], acc => if acc.isEmpty then [] else [String.mk acc.reverse]
  | c :: rest, acc =>
    if isSpaceChar c then
      if acc.isEmpty then wordsAux rest []
      else String.mk acc.reverse :: wordsAux rest []
    else wordsAux rest (c :: acc)

/-- Adjacent-word bigrams joined with an underscore. -/
def bigramsOf : List String → List String
  | a :: b :: rest => (a ++ "_" ++ b) :: bigramsOf (b :: rest)
  | _ => []

/-- `extractFeatures(text)`: lower-case, strip characters that are neither
word nor whitespace characters (`replace(/[^\w\s]/g, "")`), split into
words, and return the unigrams followed by the bigrams. -/
def extractFeatures (text : String) : List String :=
  let cleaned := (text.toList.map Char.toLower).filter
    (fun c => isWordChar c || isSpaceChar c)
  let words := wordsAux cleaned []
  words ++ bigramsOf words

/-! ### Entity recognition (`ml/entityRecognition.js`)

Each extractor models one global-regex scan of the source.  The scanners
walk the text left to right carrying a flag that records whether the
previous character was a word character (for the `\b` boundary tests) and
a fuel argument that bounds the recursion; the fuel starts at
`length + 1` and every step consumes at least one character, so it never
runs out before the scan ends. -/

/-- Take the maximal initial run of characters satisfying `p`. -/
def takeRun (p : Char → Bool) : List Char → List Char × List Char
  | [] => ([], [])
  | c :: rest =>
    if p c then
      let (r, rem) := takeRun p rest
      (c :: r, rem)
    else ([], c :: rest)

/-- A `\b` boundary holds after a word character iff the next character is
absent or not a word character. -/
def boundaryAfter (l : List Char) : Bool :=
  match l with
  | [] => true
  | c :: _ => !isWordChar c

/-- Scanner for `/\b([A-Z][a-z]+ (?:City|Country|State|Region|Island)?)\b/g`.
Simplification: only the mandatory `[A-Z][a-z]+` head of the pattern is
modelled (every match of the source regex starts with it at a word
boundary); the trailing space-and-optional-suffix part, which further
restricts and extends matches, is not.  On the texts this development
evaluates (which contain no uppercase letter) both the source regex and
this scanner produce no matches. -/
def locAux : Nat → Bool → List Char → List String
  | 0, _, _ => []
  | _ + 1, _, [] => []
  | fuel + 1, prevWord, c :: rest =>
    if !prevWord && c.isUpper then
      match takeRun Char.isLower rest with
      | ([], _) => locAux fuel (isWordChar c) rest
      | (run, rem) => String.mk (c :: run) :: locAux fuel true rem
    else locAux fuel (isWordChar c) rest

/-- Scanner for the currency regex `/[$€£¥]\s*[\d,]+\.?\d*/g`: a currency
symbol, optional whitespace, at least one digit or comma, an optional dot
and trailing digits. -/
def curAux : Nat → List Char → List String
  | 0, _ => []
  | _ + 1, [] => []
  | fuel + 1, c :: rest =>
    if c = '$' || c = '€' || c = '£' || c = '¥' then
      let (sp, r1) := takeRun isSpaceChar rest
      let (digits, r2) := takeRun (fun d => d.isDigit || d = ',') r1
      if digits.isEmpty then curAux fuel rest
      else
        match r2 with
        | '.' :: r3 =>
          let (fr, r4) := takeRun Char.isDigit r3
          String.mk (c :: (sp ++ digits ++ '.' :: fr)) :: curAux fuel r4
        | _ => String.mk (c :: (sp ++ digits)) :: curAux fuel r2
    else curAux fuel rest

/-- Scanner for the number regex `/\b\d+(?:\.\d+)?\b/g`, including the
regex-backtracking behaviour: a greedy fractional part is kept only when a
word boundary follows it, otherwise the bare integer part is matched when
a boundary follows **it** (a dot is not a word character, so a trailing
dot always leaves a valid boundary). -/
def numAux : Nat → Bool → List Char → List String
  | 0, _, _ => []
  | _ + 1, _, [] => []
  | fuel + 1, prevWord, c :: rest =>
    if !prevWord && c.isDigit then
      let (run, r1) := takeRun Char.isDigit rest
      let core := c :: run
      match r1 with
      | '.' :: r2 =>
        let (fr, r3) := takeRun Char.isDigit r2
        if fr.isEmpty then String.mk core :: numAux fuel true r1
        else if boundaryAfter r3 then
          String.mk (core ++ '.' :: fr) :: numAux fuel true r3
        else String.mk core :: numAux fuel true r1
      | _ =>
        if boundaryAfter r1 then String.mk core :: numAux fuel true r1
        else numAux fuel true rest
    else numAux fuel (isWordChar c) rest

/-- The month-name alternatives of the date regex. -/
def monthNames : List String :=
  ["January", "February", "March", "April", "May", "June", "July", "August",
   "September", "October", "November", "December"]

/-- Case-insensitive prefix test (the date regex carries the `i` flag). -/
def ciLeadsWith : List Char → List Char → Bool
  | [], _ => true
  | _ :: _, [] => false
  | a :: as, b :: bs => a.toLower = b.toLower && ciLeadsWith as bs

/-- Scanner for the date regex
`/\b(?:January|...|December|\d{1,2}[-\/]\d{1,2}[-\/]\d{2,4})\b/gi`:
a month name at word boundaries (matched case-insensitively, reported in
the original case), or a numeric date whose day and month parts are one or
two digits, whose year part is two to four digits, and which sits at word
boundaries (the `{1,2}` and `{2,4}` counters admit no backtracking escape,
so a longer digit run at any of the three positions fails the match). -/
def dateAux : Nat → Bool → List Char → List String
  | 0, _, _ => []
  | _ + 1, _, [] => []
  | fuel + 1, prevWord, c :: rest =>
    if !prevWord && c.isDigit then
      let (run, r1) := takeRun Char.isDigit rest
      let d1 := c :: run
      match r1 with
      | sep1 :: r2 =>
        if d1.length ≤ 2 ∧ (sep1 = '-' ∨ sep1 = '/') then
          let (d2, r3) := takeRun Char.isDigit r2
          match r3 with
          | sep2 :: r4 =>
            if (1 ≤ d2.length ∧ d2.length ≤ 2) ∧ (sep2 = '-' ∨ sep2 = '/') then
              let (d3, r5) := takeRun Char.isDigit r4
              if (2 ≤ d3.length ∧ d3.length ≤ 4) ∧ boundaryAfter r5 then
                String.mk (d1 ++ sep1 :: d2 ++ sep2 :: d3) :: dateAux fuel true r5
              else dateAux fuel true rest
            else dateAux fuel true rest
          | [] => dateAux fuel true rest
        else dateAux fuel true rest
      | [] => dateAux fuel true rest
    else if !prevWord then
      match monthNames.find? (fun m => ciLeadsWith m.toList (c :: rest)) with
      | some m =>
        let matched := (c :: rest).take m.length
        let rem := (c :: rest).drop m.length
        if boundaryAfter rem then String.mk matched :: dateAux fuel true rem
        else dateAux fuel (isWordChar c) rest
      | none => dateAux fuel (isWordChar c) rest
    else dateAux fuel (isWordChar c) rest

/-- The entity map built by `extractEntities`; `organizations` and `topics`
are declared by the source but never populated. -/
structure EntitySet where
  locations : List String
  organizations : List String
  dates : List String
  currencies : List String
  numbers : List String
  topics : List String
deriving DecidableEq

def emptyEntities : EntitySet := ⟨[], [], [], [], [], []⟩

/-- Deduplication as performed by the source
(`if (!entities.xs.includes(m)) entities.xs.push(m)`). -/
def dedupKeepFirst (l : List String) : List String :=
  l.foldl (fun acc s => if s ∈ acc then acc else acc ++ [s]) []

/-- `extractEntities(text)` from `ml/entityRecognition.js`. -/
def extractEntities (text : String) : EntitySet :=
  let cs := text.toList
  { locations := dedupKeepFirst (locAux (cs.length + 1) false cs)
    organizations := []
    dates := dedupKeepFirst (dateAux (cs.length + 1) false cs)
    currencies := dedupKeepFirst (curAux (cs.length + 1) cs)
    numbers := dedupKeepFirst (numAux (cs.length + 1) false cs)
    topics := [] }

/-- `scoreConfidenceByEntities(entities)`: base 0.5, plus 0.05 per entity
capped at +0.3, plus flat 0.05 bonuses for locations, dates and
currencies, capped at 1. -/
def scoreConfidenceByEntities (e : EntitySet) : Rat :=
  let score : Rat := mkRat 1 2
  let entityCount : Nat :=
    e.locations.length + e.organizations.length + e.dates.length +
      e.currencies.length + e.numbers.length + e.topics.length
  let score := score + min ((entityCount : Rat) * mkRat 1 20) (mkRat 3 10)
  let score := score + (if 0 < e.locations.length then mkRat 1 20 else 0)
  let score := score + (if 0 < e.dates.length then mkRat 1 20 else 0)
  let score := score + (if 0 < e.currencies.length then mkRat 1 20 else 0)
  min score 1

/-! ### Naive Bayes intent classifier (`ml/intentModel.js`) -/

/-- One labelled training example (`{ text, intent, type }`). -/
structure TrainingExample where
  text : String
  intent : String
  subType : Option String

/-- The fixed training corpus `TRAINING_DATA`. -/
def TRAINING_DATA : List TrainingExample :=
  [ ⟨"what is the weather", "realtime", some "weather"⟩,
    ⟨"weather forecast", "realtime", some "weather"⟩,
    ⟨"is it raining", "realtime", some "weather"⟩,
    ⟨"temperature today", "realtime", some "weather"⟩,
    ⟨"will it snow", "realtime", some "weather"⟩,
    ⟨"how hot is it", "realtime", some "weather"⟩,
    ⟨"latest news", "realtime", some "news"⟩,
    ⟨"breaking news today", "realtime", some "news"⟩,
    ⟨"what is trending", "realtime", some "news"⟩,
    ⟨"current events", "realtime", some "news"⟩,
    ⟨"headlines", "realtime", some "news"⟩,
    ⟨"exchange rate", "realtime", some "currency"⟩,
    ⟨"usd to eur", "realtime", some "currency"⟩,
    ⟨"bitcoin price", "realtime", some "currency"⟩,
    ⟨"convert currency", "realtime", some "currency"⟩,
    ⟨"explain artificial intelligence", "rag", none⟩,
    ⟨"tell me about machine learning", "rag", none⟩,
    ⟨"what is data science", "rag", none⟩,
    ⟨"define blockchain", "rag", none⟩,
    ⟨"how does deep learning work", "rag", none⟩,
    ⟨"hello", "general", none⟩,
    ⟨"hi there", "general", none⟩,
    ⟨"thanks for your help", "general", none⟩,
    ⟨"can you help me", "general", none⟩ ]

/-- Append a text to its intent bucket, creating the bucket at the end on
first sight (the insertion order of a JS object's string keys). -/
def addExample : List (String × List String) → String → String →
    List (String × List String)
  | [], k, t => [(k, [t])]
  | (k', ts) :: rest, k, t =>
    if k' = k then (k', ts ++ [t]) :: rest
    else (k', ts) :: addExample rest k t

/-- The `classExamples` grouping built by `train`. -/
def groupByIntent (data : List TrainingExample) : List (String × List String) :=
  data.foldl (fun acc ex => addExample acc ex.intent ex.text) []

/-- The class priors: label frequency over corpus size. -/
def classPriors (data : List TrainingExample) : List (String × Rat) :=
  (groupByIntent data).map (fun g => (g.1, mkRat (g.2.length : Int) data.length))

/-- `Set.add` on the growing vocabulary (insertion order, no duplicates). -/
def addVocab (v : List String) (f : String) : List String :=
  if f ∈ v then v else v ++ [f]

/-- Increment a feature counter (`featureFreq[f] = (featureFreq[f] || 0) + 1`). -/
def bumpFreq : List (String × Nat) → String → List (String × Nat)
  | [], f => [(f, 1)]
  | (f', n) :: rest, f =>
    if f' = f then (f', n + 1) :: rest else (f', n) :: bumpFreq rest f

/-- The per-class Laplace-smoothed feature probability tables of `train`.
The classes are processed in bucket order and the vocabulary grows as each
class is processed, so the `vocabulary.size` used in class `i`'s
denominator counts only the features of classes `0..i` — exactly the
incremental behaviour of the source, which fills `this.vocabulary` while
it walks the classes.  The second component is the final vocabulary. -/
def trainTables : List (String × List String) → List String →
    List (String × List (String × Rat)) × List String
  | [], vocab => ([], vocab)
  | (k, ts) :: rest, vocab =>
    let features := extractFeatures (String.intercalate " " ts)
    let vocabHere := features.foldl addVocab vocab
    let freq := features.foldl bumpFreq []
    let probs := freq.map
      (fun p => (p.1, mkRat ((p.2 : Int) + 1) (features.length + vocabHere.length)))
    let (restTables, vocabFinal) := trainTables rest vocabHere
    ((k, probs) :: restTables, vocabFinal)

/-- The trained state of `NaiveBayesIntentClassifier` after the module-load
call `mlClassifier.train(TRAINING_DATA)`. -/
structure TrainedModel where
  classPrior : List (String × Rat)
  classWordProb : List (String × List (String × Rat))
  vocabSize : Nat

/-- The module-level classifier, trained once at load time. -/
def mlClassifier : TrainedModel :=
  ⟨classPriors TRAINING_DATA,
   (trainTables (groupByIntent TRAINING_DATA) []).1,
   (trainTables (groupByIntent TRAINING_DATA) []).2.length⟩

/-- Result object of `NaiveBayesIntentClassifier.predict`. -/
structure MLPrediction where
  intent : String
  confidence : Rat
  scores : List (String × Rat)
deriving DecidableEq

/-- `classWordProb[class][feature] || 1 / (1 + vocabulary.size)`: the stored
probabilities are positive, so the `||` default fires exactly when the
feature is absent from the class table. -/
def probOr (m : TrainedModel) (cls f : String) : Rat :=
  match (m.classWordProb.lookup cls).bind (fun tbl => tbl.lookup f) with
  | some p => p
  | none => mkRat 1 (1 + m.vocabSize)

/-- `predict(text)` of the trained classifier.  The source scores each class
in log space as `log(prior) + Σ log(prob)`; since `log` is strictly
increasing, comparisons between class scores coincide with comparisons
between the linear-space weights `prior * Π prob` tracked here.  The best
class is a running strict argmax seeded with `-Infinity`, so the first
class attaining the maximum wins, and its score *is* the maximum score;
the normalized confidence `(best - min) / (max - min)` therefore equals 1
whenever the scores are not all equal, and the source's explicit
`minScore === maxScore` guard yields 0.5 otherwise (equality of logs of
positive weights is equality of the weights). -/
def predict (m : TrainedModel) (text : String) : MLPrediction :=
  let features := extractFeatures text
  let weights : List (String × Rat) :=
    m.classPrior.map
      (fun p => (p.1, p.2 * features.foldl (fun acc f => acc * probOr m p.1 f) 1))
  let best := weights.foldl
    (fun acc p =>
      match acc with
      | none => some p
      | some q => if q.2 < p.2 then some p else acc)
    none
  let wvals := weights.map Prod.snd
  let allEqual := wvals.all (fun w => w = wvals.headD w)
  let confidence : Rat := if allEqual then mkRat 1 2 else 1
  -- `best` is `some _` whenever the model has at least one class, which the
  -- trained model always does; the default is never taken
  ⟨(best.map Prod.fst).getD "", confidence, weights⟩

/-! ### Fused intent detection -/

/-- The duck-typed result object `detectIntent` hands to its caller.  The
source stores either the rule-based `scores` record or the statistical
per-class scores under the single key `scores`; the model keeps them in
two optional fields.  `entities` is attached by `detectIntent`. -/
structure ClassificationResult where
  intent : String
  confidence : Rat
  method : String
  ruleScores : Option RuleScores
  mlScores : Option (List (String × Rat))
  subType : Option String
  mlConfidence : Option Rat
  error : Option String
  entities : EntitySet
deriving DecidableEq

/-- `predictIntentML(message, ruleBased)` from `ml/intentModel.js`: use the
statistical prediction when its confidence is at least 0.6, otherwise fall
back to the rule-based result, surfacing the low statistical confidence.
The catch branch (returning the rule-based result with
`error: "ML prediction failed"`) is unreachable here: the model is trained
at module load, and `predict` on a trained model does not throw. -/
def predictIntentML (message : String) (ruleBased : RuleResult) :
    ClassificationResult :=
  let mlResult := predict mlClassifier message
  if mlResult.confidence < mkRat 3 5 then
    { intent := ruleBased.intent
      confidence := ruleBased.confidence
      method := "rule-based"
      ruleScores := some ruleBased.scores
      mlScores := none
      subType := ruleBased.subType
      mlConfidence := some mlResult.confidence
      error := none
      entities := emptyEntities }
  else
    { intent := mlResult.intent
      confidence := mlResult.confidence
      method := "ml"
      ruleScores := none
      mlScores := some mlResult.scores
      subType := none
      mlConfidence := none
      error := none
      entities := emptyEntities }

/-- `detectIntent(message)` from `src/services/intentDetector.js`: extract
entities, run the rule-based pass, run the statistical pass, attach the
entities and blend the confidence as `0.7 * classifier + 0.3 * entity`.
There is no try/catch in this function, so the strict-mode `TypeError`
thrown inside `detectIntentRuleBased` (before `predictIntentML` and its
internal catch are ever reached) propagates to the caller. -/
def detectIntent (message : String) : Except JsError ClassificationResult :=
  let entities := extractEntities message
  let entityScore := scoreConfidenceByEntities entities
  match detectIntentRuleBased message with
  | .error e => .error e
  | .ok ruleBased =>
    let result := predictIntentML message ruleBased
    .ok { result with
          entities := entities
          confidence := result.confidence * mkRat 7 10 + entityScore * mkRat 3 10 }

/-! ### Claims C1–C3: intent classification -/

theorem realtimeScoreOf_eq_zero (msgLower : String)
    (h : (INTENT_PATTERNS.any fun p => p.2.any fun kw => strIncludes msgLower kw) = false) :
    realtimeScoreOf msgLower = 0 := by
  apply List.sum_eq_zero
  intro x hx
  rcases List.mem_map.1 hx with ⟨p, hp, rfl⟩
  rw [List.countP_eq_zero]
  intro kw hkw
  have hp' := (List.any_eq_false.1 h) p hp
  have hkw' := (List.any_eq_false.1 (by simpa using hp')) kw hkw
  simpa using hkw'

/-- Claim C1 (code bug evidence): `detectIntent` on a message containing the
live-data keyword `"weather"` raises a `TypeError` instead of returning a
classification result: the rule-based pass writes `message._detectedType`
on a string primitive in strict-mode module code, and this happens before
the statistical path (and its try/catch) is ever reached, so the error
propagates out of `detectIntent`. -/
theorem detectIntent_weather_raises :
    detectIntent "weather" = .error .typeError := by rfl

/-- Claim C2 (counterexample): classifying the empty message does **not**
yield the conversational category with confidence 0. -/
theorem detectIntent_empty_not_general :
    (detectIntent "").toOption.map (fun r => (r.intent, r.confidence)) ≠
      some ("general", 0) := by decide

/-- Claim C2 (amended): classifying the empty message yields the live-data
(`realtime`) category with final confidence 0.85, via the statistical
path: the empty feature set scores every class at its prior, the class
with the largest prior (realtime) wins with normalized confidence 1,
which passes the 0.6 gate, and the blend `0.7 * 1 + 0.3 * 0.5` with the
base entity score 0.5 gives 17/20. -/
theorem detectIntent_empty_eval :
    (detectIntent "").toOption.map (fun r => (r.intent, r.confidence, r.method)) =
      some ("realtime", mkRat 17 20, "ml") := by decide

/-- Claim C3 (counterexample): on the message `"tell me please"` the
knowledge-lookup and conversational match counts tie at the positive
maximum (1 each, realtime 0), yet the rule-based classifier returns
`"rag"`, not the conversational category. -/
theorem ruleBased_tie_not_general :
    (detectIntentRuleBased "tell me please").toOption.map
        (fun r => (r.intent, r.scores.realtime, r.scores.rag, r.scores.general)) =
      some ("rag", 0, 1, 1) := by decide

/-- Claim C3 (amended): whenever `detectIntentRuleBased` returns normally —
which happens exactly when no live-data keyword matched, so the realtime
count is 0 — the result is `"rag"` iff the rag count is positive and at
least the general count (ties for the maximum are broken in favour of
rag, not conversational), and `"general"` otherwise. -/
theorem detectIntentRuleBased_tie_policy (msg : String) (r : RuleResult)
    (h : detectIntentRuleBased msg = .ok r) :
    r.scores.realtime = 0 ∧
      r.intent = if 0 < r.scores.rag ∧ r.scores.general ≤ r.scores.rag
        then "rag" else "general" := by
  by_cases hc :
      (INTENT_PATTERNS.any fun p => p.2.any fun kw => strIncludes (jsToLower msg) kw) = true
  · simp [detectIntentRuleBased, hc] at h
  · have hc' :
        (INTENT_PATTERNS.any fun p => p.2.any fun kw => strIncludes (jsToLower msg) kw) = false :=
      by simpa using hc
    have hzero := realtimeScoreOf_eq_zero (jsToLower msg) hc'
    simp only [detectIntentRuleBased, hc', Bool.false_eq_true, if_false] at h
    rw [Except.ok.injEq] at h
    subst h
    refine ⟨hzero, ?_⟩
    simp only [hzero, Nat.zero_max, Nat.lt_irrefl, and_false, if_false]
    by_cases h2 : generalMatchesOf (jsToLower msg) ≤ ragMatchesOf (jsToLower msg)
    · have hm : max (ragMatchesOf (jsToLower msg)) (generalMatchesOf (jsToLower msg)) =
          ragMatchesOf (jsToLower msg) := max_eq_left h2
      simp [hm, h2]
    · have hlt : ragMatchesOf (jsToLower msg) < generalMatchesOf (jsToLower msg) :=
        Nat.lt_of_not_le h2
      have hm : ragMatchesOf (jsToLower msg) ≠
          max (ragMatchesOf (jsToLower msg)) (generalMatchesOf (jsToLower msg)) := by
        rw [max_eq_right (Nat.le_of_lt hlt)]
        exact Nat.ne_of_lt hlt
      simp [hm, h2]

/-- The concrete rule-based result for the message `"hello"`: one
conversational keyword match, nothing else. -/
def helloRule : RuleResult := ⟨"general", mkRat 1 3, ⟨0, 0, 1⟩, none⟩

/-- Witness for `detectIntentRuleBased_tie_policy` at the concrete message
`"hello"`. -/
theorem detectIntentRuleBased_tie_policy_witness :
    (helloRule.scores.realtime = 0 ∧
      helloRule.intent = if 0 < helloRule.scores.rag ∧
          helloRule.scores.general ≤ helloRule.scores.rag
        then "rag" else "general") :=
  detectIntentRuleBased_tie_policy "hello" helloRule (by rfl)

/-! ### Response merger (`ResponseMerger.mergeResponses` of
`src/services/rag.js`) -/

/-- The four keys of the `sources` object handed to the merger. -/
inductive SourceKind where
  | realtime
  | rag
  | pdf
  | llm
deriving DecidableEq

/-- One per-source result (`{ success, content, confidence, metadata }`);
`confidence` and `metadata` are optional fields of the duck-typed source
object. -/
structure SourceResult where
  success : Bool
  content : String
  confidence : Option Rat
  metadata : Option (List (String × String))
deriving DecidableEq

/-- The `sources` object: each key optionally present. -/
structure Sources where
  realtime : Option SourceResult
  rag : Option SourceResult
  pdf : Option SourceResult
  llm : Option SourceResult
deriving DecidableEq

def getSource (s : Sources) : SourceKind → Option SourceResult
  | .realtime => s.realtime
  | .rag => s.rag
  | .pdf => s.pdf
  | .llm => s.llm

/-- The intent-dependent priority order of `mergeResponses`. -/
def priorityOrder (intent : String) : List SourceKind :=
  if intent = "realtime" then [.realtime, .rag, .pdf, .llm]
  else if intent = "rag" ∨ intent = "pdf" then [.pdf, .rag, .realtime, .llm]
  else [.llm, .rag, .pdf, .realtime]

/-- JS `confidence || default` on a possibly-absent number: the default is
substituted when the field is `undefined` **or** holds the falsy number 0. -/
def jsOrQ (c : Option Rat) (d : Rat) : Rat :=
  match c with
  | none => d
  | some x => if x = 0 then d else x

/-- One entry of the merger's attribution list (`sourceDetails`); the
primary entry carries no `content` preview, supplementary entries do. -/
structure SourceDetail where
  source : SourceKind
  confidence : Rat
  content : Option String
  metadata : List (String × String)
deriving DecidableEq

/-- The merger's result object. -/
structure Merged where
  primaryResponse : String
  sourceDetails : List SourceDetail
  confidenceScore : Rat
  usedSources : List SourceKind
deriving DecidableEq

namespace ResponseMerger

/-- `ResponseMerger.mergeResponses(sources, query, intent)`: scan the
priority order for the first present-and-successful source; it becomes
primary with confidence `confidence || 0.8`; every other
present-and-successful source is appended, in priority order, to the
attribution list with confidence `confidence || 0.6` and a bounded
100-character content preview, and to the used-sources list.  If no source
succeeded the initial empty merged object is returned unchanged (`query`
is unused by the source as well). -/
def mergeResponses (sources : Sources) (_query : String) (intent : String) :
    Merged :=
  let order := priorityOrder intent
  let present := order.filterMap
    (fun k => (getSource sources k).map (fun r => (k, r)))
  match present.find? (fun kr => kr.2.success) with
  | none => ⟨"", [], 0, []⟩
  | some (p, pr) =>
    let highestConfidence := jsOrQ pr.confidence (mkRat 4 5)
    let suppDetails : List SourceDetail := order.filterMap (fun k =>
      if k = p then none
      else (getSource sources k).bind (fun r =>
        if r.success then
          some ⟨k, jsOrQ r.confidence (mkRat 3 5),
                some (r.content.take 100 ++ "..."), r.metadata.getD []⟩
        else none))
    let suppKinds : List SourceKind := order.filter (fun k =>
      decide (k ≠ p) && ((getSource sources k).map (fun r => r.success)).getD false)
    { primaryResponse := pr.content
      sourceDetails := ⟨p, highestConfidence, none, pr.metadata.getD []⟩ :: suppDetails
      confidenceScore := highestConfidence
      usedSources := p :: suppKinds }

end ResponseMerger

/-! ### Claims C5, C6, C10: merger invariants -/

/-- All four source keys. -/
def allKinds : List SourceKind := [.realtime, .rag, .pdf, .llm]

/-- `sources[k] && sources[k].success` as a boolean. -/
def isSuccess (s : Sources) (k : SourceKind) : Bool :=
  ((getSource s k).map (fun r => r.success)).getD false

/-- Did at least one source succeed? -/
def anySuccess (s : Sources) : Bool := allKinds.any (isSuccess s)

/-- Every present successful source has non-empty content and a
non-negative confidence (when the field is present). -/
def wellFormed (s : Sources) : Bool :=
  allKinds.all (fun k =>
    ((getSource s k).map (fun r =>
      !r.success ||
        (decide (r.content ≠ "") && decide ((0 : Rat) ≤ r.confidence.getD 0)))).getD true)

theorem mem_priorityOrder (intent : String) (k : SourceKind) :
    k ∈ priorityOrder intent := by
  unfold priorityOrder
  split
  · cases k <;> simp
  · split
    · cases k <;> simp
    · cases k <;> simp

theorem mem_allKinds (k : SourceKind) : k ∈ allKinds := by
  cases k <;> simp [allKinds]

theorem jsOrQ_pos (c : Option Rat) (d : Rat) (hd : 0 < d)
    (hc : 0 ≤ c.getD 0) : 0 < jsOrQ c d := by
  cases c with
  | none => simpa [jsOrQ] using hd
  | some x =>
    simp only [jsOrQ]
    split
    · exact hd
    · rename_i hx
      exact lt_of_le_of_ne (by simpa using hc) (Ne.symm hx)

/-- Claim C6: under live-data intent, with the live-data and
private-documents sources both present and successful (and the others
absent), the live-data source becomes primary — whatever the two raw
confidences are — and the pdf source appears only in the supplementary
attribution list, after the primary entry, with its content truncated to
the bounded 100-character preview. -/
theorem mergeResponses_priority (cR cP : Option Rat) (contentR contentP : String)
    (mR mP : Option (List (String × String))) (q : String) :
    ResponseMerger.mergeResponses
        ⟨some ⟨true, contentR, cR, mR⟩, none, some ⟨true, contentP, cP, mP⟩, none⟩
        q "realtime" =
      ⟨contentR,
       [⟨.realtime, jsOrQ cR (mkRat 4 5), none, mR.getD []⟩,
        ⟨.pdf, jsOrQ cP (mkRat 3 5), some (contentP.take 100 ++ "..."), mP.getD []⟩],
       jsOrQ cR (mkRat 4 5),
       [.realtime, .pdf]⟩ := by
  rfl

/-- Claim C10: the `|| 0.8` and `|| 0.6` confidence defaults fire on the
falsy number 0, not only on an absent field: a successful primary source
with confidence exactly 0 is reported with overall confidence 0.8, and a
successful supplementary source with confidence exactly 0 is attributed
with confidence 0.6. -/
theorem mergeResponses_zero_confidence_defaults (contentR contentP : String) (q : String) :
    (ResponseMerger.mergeResponses
        ⟨some ⟨true, contentR, some 0, none⟩, none, some ⟨true, contentP, some 0, none⟩, none⟩
        q "realtime").confidenceScore = mkRat 4 5 ∧
    (ResponseMerger.mergeResponses
        ⟨some ⟨true, contentR, some 0, none⟩, none, some ⟨true, contentP, some 0, none⟩, none⟩
        q "realtime").sourceDetails.map (fun d => (d.source, d.confidence)) =
      [(.realtime, mkRat 4 5), (.pdf, mkRat 3 5)] := by
  exact ⟨rfl, rfl⟩

/-- Claim C5 (counterexample): a successful source with empty content makes
the merger return an empty `primaryResponse` even though a source
succeeded, so the success branch of the claimed invariant fails as
stated. -/
theorem merge_empty_primary_cex :
    anySuccess ⟨none, none, none, some ⟨true, "", none, none⟩⟩ = true ∧
    (ResponseMerger.mergeResponses ⟨none, none, none, some ⟨true, "", none, none⟩⟩
        "q" "general").primaryResponse = "" := by
  exact ⟨rfl, rfl⟩

/-- Claim C5 (amended): provided every present successful source carries
non-empty content and a non-negative confidence, the merger satisfies the
claimed invariant: if at least one source succeeded, the primary content
is non-empty and the overall confidence is strictly positive; and — with
no proviso needed — if no source succeeded, the result is exactly the
empty merged object (empty primary content, empty attribution list,
confidence 0, no used sources). -/
theorem mergeResponses_success_invariant (s : Sources) (q intent : String)
    (hgood : wellFormed s = true) :
    (anySuccess s = true →
      (ResponseMerger.mergeResponses s q intent).primaryResponse ≠ "" ∧
        0 < (ResponseMerger.mergeResponses s q intent).confidenceScore) ∧
    (anySuccess s = false →
      ResponseMerger.mergeResponses s q intent = ⟨"", [], 0, []⟩) := by
  constructor
  · intro hany
    rcases List.any_eq_true.1 hany with ⟨k, _, hk⟩
    obtain ⟨r, hr, hrs⟩ : ∃ r, getSource s k = some r ∧ r.success = true := by
      cases hsk : getSource s k with
      | none => simp [isSuccess, hsk] at hk
      | some r => exact ⟨r, rfl, by simpa [isSuccess, hsk] using hk⟩
    have hmem : (k, r) ∈ (priorityOrder intent).filterMap
        (fun k => (getSource s k).map (fun r => (k, r))) := by
      rw [List.mem_filterMap]
      exact ⟨k, mem_priorityOrder intent k, by rw [hr]; rfl⟩
    have hsome : (((priorityOrder intent).filterMap
        (fun k => (getSource s k).map (fun r => (k, r)))).find?
          (fun kr => kr.2.success)).isSome := by
      rw [List.find?_isSome]
      exact ⟨(k, r), hmem, hrs⟩
    rcases Option.isSome_iff_exists.1 hsome with ⟨x, hfind⟩
    obtain ⟨p, pr⟩ := x
    have hpred : pr.success = true := by
      simpa using List.find?_some hfind
    have hpmem := List.mem_of_find?_eq_some hfind
    rw [List.mem_filterMap] at hpmem
    rcases hpmem with ⟨a, -, ha⟩
    rcases Option.map_eq_some'.1 ha with ⟨ra, hra, hpr⟩
    have hap : a = p := congrArg Prod.fst hpr
    have hrap : ra = pr := congrArg Prod.snd hpr
    rw [hap, hrap] at hra
    have hpgood := (List.all_eq_true.1 hgood) p (mem_allKinds p)
    simp only [hra] at hpgood
    simp only [Option.map_some', Option.getD_some, hpred, Bool.not_true,
      Bool.false_or, Bool.and_eq_true, decide_eq_true_eq] at hpgood
    have hres : ResponseMerger.mergeResponses s q intent =
        { primaryResponse := pr.content
          sourceDetails :=
            ⟨p, jsOrQ pr.confidence (mkRat 4 5), none, pr.metadata.getD []⟩ ::
              (priorityOrder intent).filterMap (fun k =>
                if k = p then none
                else (getSource s k).bind (fun r =>
                  if r.success then
                    some ⟨k, jsOrQ r.confidence (mkRat 3 5),
                          some (r.content.take 100 ++ "..."), r.metadata.getD []⟩
                  else none))
          confidenceScore := jsOrQ pr.confidence (mkRat 4 5)
          usedSources := p :: (priorityOrder intent).filter (fun k =>
            decide (k ≠ p) &&
              ((getSource s k).map (fun r => r.success)).getD false) } := by
      simp only [ResponseMerger.mergeResponses]
      rw [hfind]
    rw [hres]
    exact ⟨hpgood.1, jsOrQ_pos pr.confidence (mkRat 4 5) (by norm_num) hpgood.2⟩
  · intro hnone
    have hfind : (((priorityOrder intent).filterMap
        (fun k => (getSource s k).map (fun r => (k, r)))).find?
          (fun kr => kr.2.success)) = none := by
      rw [List.find?_eq_none]
      intro x hkr
      obtain ⟨k, r⟩ := x
      rw [List.mem_filterMap] at hkr
      rcases hkr with ⟨a, -, ha⟩
      rcases Option.map_eq_some'.1 ha with ⟨ra, hra, hpr⟩
      have hak : a = k := congrArg Prod.fst hpr
      have hrak : ra = r := congrArg Prod.snd hpr
      rw [hak, hrak] at hra
      have hks := List.any_eq_false.1 (by simpa [anySuccess] using hnone) k (mem_allKinds k)
      have hrs : r.success = false := by
        simpa [isSuccess, hra] using hks
      simp [hrs]
    simp only [ResponseMerger.mergeResponses]
    rw [hfind]

/-- Witness for `mergeResponses_success_invariant` at a concrete source set
with one successful source of non-empty content and confidence 0.5. -/
theorem mergeResponses_success_invariant_witness :
    wellFormed ⟨none, none, none, some ⟨true, "ok", some (mkRat 1 2), none⟩⟩ = true ∧
    ((ResponseMerger.mergeResponses
        ⟨none, none, none, some ⟨true, "ok", some (mkRat 1 2), none⟩⟩
        "q" "general").primaryResponse ≠ "" ∧
      0 < (ResponseMerger.mergeResponses
        ⟨none, none, none, some ⟨true, "ok", some (mkRat 1 2), none⟩⟩
        "q" "general").confidenceScore) :=
  ⟨by decide,
   (mergeResponses_success_invariant
      ⟨none, none, none, some ⟨true, "ok", some (mkRat 1 2), none⟩⟩
      "q" "general" (by decide)).1 (by decide)⟩

/-! ### Caches: `CacheManager` (`src/utils/analytics.js`) and
`DistributedCache` (unnamed source file) -/

namespace CacheManager

/-- A `CacheManager` entry: `{ value, expiryTime }`. -/
structure Entry where
  value : String
  expiryTime : Nat
deriving DecidableEq

/-- `CacheManager.get(key)`: absent key is a miss; a key whose expiry time
lies strictly in the past (`Date.now() > expiryTime`) is deleted and
treated as a miss; otherwise the stored value is returned.  The map is
threaded explicitly and `Date.now()` is the `now` argument. -/
def get (cache : List (String × Entry)) (key : String) (now : Nat) :
    Option String × List (String × Entry) :=
  match cache.lookup key with
  | none => (none, cache)
  | some cached =>
    if cached.expiryTime < now then (none, delA cache key)
    else (some cached.value, cache)

end CacheManager

namespace DistributedCache

/-- A `DistributedCache` local entry: `{ value, expiresAt }`. -/
structure Entry where
  value : String
  expiresAt : Nat
deriving DecidableEq

/-- `DistributedCache.get(key)` with the shared (Redis) tier absent
(`this.redis === null`, the state after a failed or skipped
initialization), so only the local branch runs: a present entry is a hit
iff `expiresAt > Date.now()`; everything else is a miss.  Note that the
miss path does **not** delete the stale entry — the local map is returned
unchanged.  Nothing in this branch can throw, so the surrounding
try/catch is inert. -/
def get (localCache : List (String × Entry)) (key : String) (now : Nat) :
    Option String × List (String × Entry) :=
  match localCache.lookup key with
  | some localValue =>
    if now < localValue.expiresAt then (some localValue.value, localCache)
    else (none, localCache)
  | none => (none, localCache)

end DistributedCache

/-! ### Claim C4: cache expiry -/

/-- Claim C4 (counterexample): a `DistributedCache.get` strictly after the
stored expiry instant returns no value but leaves the stale entry in the
local store — the entry is still present after the get, so the eviction
half of the claim fails for this cache. -/
theorem distributedCache_stale_survives :
    DistributedCache.get [("k", ⟨"v", 100⟩)] "k" 101 = (none, [("k", ⟨"v", 100⟩)]) ∧
    ((DistributedCache.get [("k", ⟨"v", 100⟩)] "k" 101).2.lookup "k").isSome = true ∧
    (100 : Nat) < 101 := by decide

/-- Claim C4 (amended): a get strictly after the stored expiry instant
never returns a value in either cache; `CacheManager.get` additionally
evicts the stale entry (afterwards the key is absent), while
`DistributedCache.get` leaves its local store unchanged. -/
theorem cache_expired_get
    (cm : List (String × CacheManager.Entry))
    (dc : List (String × DistributedCache.Entry)) (key : String) (now : Nat)
    (e : CacheManager.Entry) (d : DistributedCache.Entry)
    (hcm : cm.lookup key = some e) (hce : e.expiryTime < now)
    (hdc : dc.lookup key = some d) (hde : d.expiresAt < now) :
    CacheManager.get cm key now = (none, delA cm key) ∧
    (CacheManager.get cm key now).2.lookup key = none ∧
    DistributedCache.get dc key now = (none, dc) := by
  refine ⟨?_, ?_, ?_⟩
  · simp [CacheManager.get, hcm, hce]
  · simp [CacheManager.get, hcm, hce, lookup_delA_self]
  · have hlt : ¬ now < d.expiresAt := by omega
    simp [DistributedCache.get, hdc, hlt]

/-- Witness for `cache_expired_get` at concrete one-entry caches with
expiry instant 100 read at time 101. -/
theorem cache_expired_get_witness :
    CacheManager.get [("k", ⟨"v", 100⟩)] "k" 101 =
        (none, delA [("k", (⟨"v", 100⟩ : CacheManager.Entry))] "k") ∧
    (CacheManager.get [("k", ⟨"v", 100⟩)] "k" 101).2.lookup "k" = none ∧
    DistributedCache.get [("k", ⟨"w", 100⟩)] "k" 101 = (none, [("k", ⟨"w", 100⟩)]) :=
  cache_expired_get [("k", ⟨"v", 100⟩)] [("k", ⟨"w", 100⟩)] "k" 101
    ⟨"v", 100⟩ ⟨"w", 100⟩ (by decide) (by decide) (by decide) (by decide)

/-! ### Advanced rate limiter (`src/utils/advancedRateLimiter.js`)

Times are `Date.now()` millisecond values, modelled as `Nat`.  The three
tracked scopes are an enumeration; the source's degrade-open branch for an
unknown scope string is outside this enumeration and not needed by the
claims. -/

namespace AdvancedRateLimiter

/-- One scope's configuration: `{ requests, window }`. -/
structure ScopeLimit where
  requests : Nat
  window : Nat
deriving DecidableEq

/-- `this.limits`. -/
structure Limits where
  perUser : ScopeLimit
  perSession : ScopeLimit
  perIP : ScopeLimit
deriving DecidableEq

/-- One tracked window record: `{ requests, firstRequest, dynamic }`. -/
structure RateRecord where
  requests : Nat
  firstRequest : Nat
  dynamic : Nat
deriving DecidableEq

/-- The `type` argument of `checkLimit`, restricted to the three scopes the
constructor installs. -/
inductive Scope where
  | user
  | session
  | ip
deriving DecidableEq

/-- The limiter's mutable state: limits, the three tracker maps and the
blocklist (identity to unblock instant). -/
structure RLState where
  limits : Limits
  byUser : List (String × RateRecord)
  bySession : List (String × RateRecord)
  byIP : List (String × RateRecord)
  blocklist : List (String × Nat)
deriving DecidableEq

/-- The limits installed by the constructor: user 100, session 50,
address 500 requests per one-hour window. -/
def defaultLimits : Limits :=
  ⟨⟨100, 3600000⟩, ⟨50, 3600000⟩, ⟨500, 3600000⟩⟩

/-- The state right after construction: default limits, empty trackers,
empty blocklist. -/
def initialState : RLState := ⟨defaultLimits, [], [], [], []⟩

def trackerOf (st : RLState) : Scope → List (String × RateRecord)
  | .user => st.byUser
  | .session => st.bySession
  | .ip => st.byIP

def limitOf (l : Limits) : Scope → ScopeLimit
  | .user => l.perUser
  | .session => l.perSession
  | .ip => l.perIP

def setTracker (st : RLState) : Scope → List (String × RateRecord) → RLState
  | .user, t => { st with byUser := t }
  | .session, t => { st with bySession := t }
  | .ip, t => { st with byIP := t }

/-- Result object of `checkLimit` (`remaining` is
`Math.max(0, dynamic - requests)`, which truncated subtraction gives). -/
structure CheckResult where
  allowed : Bool
  remaining : Nat
  retryAfter : Option Nat
deriving DecidableEq

/-- `addToBlocklist(identifier, durationMs)`. -/
def addToBlocklist (blocklist : List (String × Nat)) (identifier : String)
    (now durationMs : Nat) : List (String × Nat) :=
  setA blocklist identifier (now + durationMs)

/-- `checkLimit(identifier, type)`: start a fresh window (count 0, stamped
`now`, capacity = the scope's current limit) when no record exists or the
record's window has lapsed (`now - firstRequest > window`); increment the
count; allow iff `count ≤ dynamic`; on denial add the identity to the
blocklist for a 5-minute cool-down (300000 ms) and report a 300-second
retry-after hint. -/
def checkLimit (st : RLState) (identifier : String) (scope : Scope) (now : Nat) :
    CheckResult × RLState :=
  let limit := limitOf st.limits scope
  let record :=
    match (trackerOf st scope).lookup identifier with
    | some r =>
      if limit.window < now - r.firstRequest then
        (⟨0, now, limit.requests⟩ : RateRecord)
      else r
    | none => ⟨0, now, limit.requests⟩
  let record' : RateRecord := { record with requests := record.requests + 1 }
  let st1 := setTracker st scope (setA (trackerOf st scope) identifier record')
  if record'.requests ≤ record'.dynamic then
    (⟨true, record'.dynamic - record'.requests, none⟩, st1)
  else
    (⟨false, record'.dynamic - record'.requests, some 300⟩,
     { st1 with blocklist := addToBlocklist st1.blocklist identifier now 300000 })

/-- `cleanup()`: drop session-scope records whose window has lapsed and
blocklist entries whose unblock instant has passed.  The user and address
trackers are not touched by the source. -/
def cleanup (st : RLState) (now : Nat) : RLState :=
  { st with
    bySession := st.bySession.filter
      (fun p => decide (¬ st.limits.perSession.window < now - p.2.firstRequest))
    blocklist := st.blocklist.filter (fun p => decide (¬ p.2 < now)) }

/-- Run `checkLimit` for one identity and scope at each time of a list, in
order, threading the state. -/
def checkMany (st : RLState) (identifier : String) (scope : Scope) :
    List Nat → List CheckResult × RLState
  | [] => ([], st)
  | t :: ts =>
    let step := checkLimit st identifier scope t
    let rest := checkMany step.2 identifier scope ts
    (step.1 :: rest.1, rest.2)

end AdvancedRateLimiter

/-! ### Rate limiter step lemmas -/

namespace AdvancedRateLimiter

theorem trackerOf_setTracker_self (st : RLState) (sc : Scope)
    (t : List (String × RateRecord)) : trackerOf (setTracker st sc t) sc = t := by
  cases sc <;> rfl

theorem setTracker_limits (st : RLState) (sc : Scope)
    (t : List (String × RateRecord)) : (setTracker st sc t).limits = st.limits := by
  cases sc <;> rfl

theorem setTracker_blocklist (st : RLState) (sc : Scope)
    (t : List (String × RateRecord)) :
    (setTracker st sc t).blocklist = st.blocklist := by
  cases sc <;> rfl

theorem trackerOf_withBlocklist (st : RLState) (sc : Scope)
    (bl : List (String × Nat)) :
    trackerOf { st with blocklist := bl } sc = trackerOf st sc := by
  cases sc <;> rfl

/-- A `checkLimit` call inside an existing window with spare capacity:
the count is bumped, the call is allowed, nothing else changes. -/
theorem checkLimit_within_allowed (st : RLState) (id : String) (sc : Scope)
    (now k t0 d : Nat)
    (hrec : (trackerOf st sc).lookup id = some ⟨k, t0, d⟩)
    (hwin : now - t0 ≤ (limitOf st.limits sc).window)
    (hle : k + 1 ≤ d) :
    checkLimit st id sc now =
      (⟨true, d - (k + 1), none⟩,
       setTracker st sc (setA (trackerOf st sc) id ⟨k + 1, t0, d⟩)) := by
  simp only [checkLimit]
  rw [hrec]
  dsimp only
  rw [if_neg (show ¬ (limitOf st.limits sc).window < now - t0 by omega)]
  dsimp only
  rw [if_pos hle]

/-- A `checkLimit` call inside an existing window with the capacity already
used up: the count is still bumped, the call is denied with a 300-second
retry-after, and the identity's blocklist entry is set to `now + 300000`. -/
theorem checkLimit_within_denied (st : RLState) (id : String) (sc : Scope)
    (now k t0 d : Nat)
    (hrec : (trackerOf st sc).lookup id = some ⟨k, t0, d⟩)
    (hwin : now - t0 ≤ (limitOf st.limits sc).window)
    (hgt : d < k + 1) :
    checkLimit st id sc now =
      (⟨false, d - (k + 1), some 300⟩,
       { setTracker st sc (setA (trackerOf st sc) id ⟨k + 1, t0, d⟩) with
         blocklist := setA st.blocklist id (now + 300000) }) := by
  simp only [checkLimit, addToBlocklist]
  rw [hrec]
  dsimp only
  rw [if_neg (show ¬ (limitOf st.limits sc).window < now - t0 by omega)]
  dsimp only
  rw [if_neg (show ¬ k + 1 ≤ d by omega), setTracker_blocklist]

/-- A `checkLimit` call with no tracked record: a fresh window stamped `now`
with count 1 and the scope's current capacity. -/
theorem checkLimit_fresh (st : RLState) (id : String) (sc : Scope) (now : Nat)
    (hrec : (trackerOf st sc).lookup id = none)
    (h1 : 1 ≤ (limitOf st.limits sc).requests) :
    checkLimit st id sc now =
      (⟨true, (limitOf st.limits sc).requests - 1, none⟩,
       setTracker st sc (setA (trackerOf st sc) id
         ⟨1, now, (limitOf st.limits sc).requests⟩)) := by
  simp only [checkLimit]
  rw [hrec]
  dsimp only
  rw [if_pos (show 0 + 1 ≤ (limitOf st.limits sc).requests by omega)]

/-- A `checkLimit` call on a record whose window has lapsed: the record is
replaced by a fresh window stamped `now` with count 1 and the scope's
current capacity. -/
theorem checkLimit_reset (st : RLState) (id : String) (sc : Scope)
    (now k t0 d : Nat)
    (hrec : (trackerOf st sc).lookup id = some ⟨k, t0, d⟩)
    (hexp : (limitOf st.limits sc).window < now - t0)
    (h1 : 1 ≤ (limitOf st.limits sc).requests) :
    checkLimit st id sc now =
      (⟨true, (limitOf st.limits sc).requests - 1, none⟩,
       setTracker st sc (setA (trackerOf st sc) id
         ⟨1, now, (limitOf st.limits sc).requests⟩)) := by
  simp only [checkLimit]
  rw [hrec]
  dsimp only
  rw [if_pos hexp]
  dsimp only
  rw [if_pos (show 0 + 1 ≤ (limitOf st.limits sc).requests by omega)]

end AdvancedRateLimiter

namespace AdvancedRateLimiter

/-- The `checkLimit` result of the call that brings the window count of a
capacity-`L` record to `m`. -/
def resultAt (L m : Nat) : CheckResult :=
  ⟨decide (m ≤ L), L - m, if m ≤ L then none else some 300⟩

/-- Running a batch of `checkLimit` calls for one identity, all inside the
window stamped `t0`, starting from a tracked record `⟨k, t0, L⟩`: the
i-th call brings the count to `k + i + 1` and is allowed iff that count is
within the capacity `L`, the final record is `⟨k + n, t0, L⟩`, the limits
are untouched, the blocklist is untouched when the capacity is never
exceeded, and once it is exceeded the final blocklist entry is five
minutes after the last call. -/
theorem checkMany_within (id : String) (sc : Scope) (t0 L W : Nat) :
    ∀ (ts : List Nat) (st : RLState) (k : Nat),
      (limitOf st.limits sc).window = W →
      (trackerOf st sc).lookup id = some ⟨k, t0, L⟩ →
      (∀ t ∈ ts, t - t0 ≤ W) →
      (checkMany st id sc ts).1 =
          (List.range ts.length).map (fun i => resultAt L (k + i + 1)) ∧
      (trackerOf (checkMany st id sc ts).2 sc).lookup id =
          some ⟨k + ts.length, t0, L⟩ ∧
      (checkMany st id sc ts).2.limits = st.limits ∧
      (k + ts.length ≤ L → (checkMany st id sc ts).2.blocklist = st.blocklist) ∧
      (∀ tl, ts.getLast? = some tl → L < k + ts.length →
        (checkMany st id sc ts).2.blocklist.lookup id = some (tl + 300000)) := by
  intro ts
  induction ts with
  | nil =>
    intro st k hW hrec hin
    exact ⟨rfl, hrec, rfl, fun _ => rfl, fun tl h => by simp at h⟩
  | cons t ts ih =>
    intro st k hW hrec hin
    have hw : t - t0 ≤ (limitOf st.limits sc).window := by
      rw [hW]
      exact hin t (by simp)
    have h1in : ∀ t' ∈ ts, t' - t0 ≤ W := fun t' ht' => hin t' (by simp [ht'])
    have hreindex : (List.range (ts.length + 1)).map
        (fun i => resultAt L (k + i + 1)) =
        resultAt L (k + 1) ::
          (List.range ts.length).map (fun i => resultAt L (k + 1 + i + 1)) := by
      rw [List.range_succ_eq_map, List.map_cons, List.map_map]
      refine congrArg₂ List.cons rfl (List.map_congr_left ?_)
      intro i _
      simp only [Function.comp_apply]
      rw [show k + (i + 1) + 1 = k + 1 + i + 1 by omega]
    by_cases hle : k + 1 ≤ L
    · have hstep := checkLimit_within_allowed st id sc t k t0 L hrec hw hle
      set st1 := setTracker st sc (setA (trackerOf st sc) id ⟨k + 1, t0, L⟩)
        with hst1
      have h1rec : (trackerOf st1 sc).lookup id = some ⟨k + 1, t0, L⟩ := by
        rw [hst1, trackerOf_setTracker_self]
        exact lookup_setA_self _ id _
      have h1lim : st1.limits = st.limits := setTracker_limits _ _ _
      have h1bl : st1.blocklist = st.blocklist := setTracker_blocklist _ _ _
      have h1W : (limitOf st1.limits sc).window = W := by rw [h1lim, hW]
      obtain ⟨ihres, ihrec, ihlim, ihbl, ihlast⟩ := ih st1 (k + 1) h1W h1rec h1in
      have hcm : checkMany st id sc (t :: ts) =
          ((⟨true, L - (k + 1), none⟩ : CheckResult) :: (checkMany st1 id sc ts).1,
           (checkMany st1 id sc ts).2) := by
        simp only [checkMany]
        rw [hstep]
      rw [hcm]
      refine ⟨?_, ?_, ?_, ?_, ?_⟩
      · rw [ihres, List.length_cons, hreindex]
        refine congrArg₂ List.cons ?_ rfl
        simp [resultAt, hle]
      · rw [ihrec, List.length_cons,
          show k + (ts.length + 1) = k + 1 + ts.length by omega]
      · rw [ihlim, h1lim]
      · intro hcap
        rw [List.length_cons] at hcap
        rw [ihbl (by omega), h1bl]
      · intro tl htl hover
        rw [List.length_cons] at hover
        cases ts with
        | nil =>
          exact absurd hover (by simp only [List.length_nil]; omega)
        | cons t1 ts2 =>
          have htl2 : (t1 :: ts2).getLast? = some tl := by
            simpa [List.getLast?_cons_cons] using htl
          apply ihlast tl htl2
          simp only [List.length_cons] at hover ⊢
          omega
    · have hgt : L < k + 1 := by omega
      have hstep := checkLimit_within_denied st id sc t k t0 L hrec hw hgt
      set st1 := { setTracker st sc (setA (trackerOf st sc) id ⟨k + 1, t0, L⟩) with
        blocklist := setA st.blocklist id (t + 300000) } with hst1
      have h1rec : (trackerOf st1 sc).lookup id = some ⟨k + 1, t0, L⟩ := by
        rw [hst1, trackerOf_withBlocklist, trackerOf_setTracker_self]
        exact lookup_setA_self _ id _
      have h1lim : st1.limits = st.limits := setTracker_limits _ _ _
      have h1bl : st1.blocklist = setA st.blocklist id (t + 300000) := by rw [hst1]
      have h1W : (limitOf st1.limits sc).window = W := by rw [h1lim, hW]
      obtain ⟨ihres, ihrec, ihlim, ihbl, ihlast⟩ := ih st1 (k + 1) h1W h1rec h1in
      have hcm : checkMany st id sc (t :: ts) =
          ((⟨false, L - (k + 1), some 300⟩ : CheckResult) ::
            (checkMany st1 id sc ts).1,
           (checkMany st1 id sc ts).2) := by
        simp only [checkMany]
        rw [hstep]
      rw [hcm]
      refine ⟨?_, ?_, ?_, ?_, ?_⟩
      · rw [ihres, List.length_cons, hreindex]
        refine congrArg₂ List.cons ?_ rfl
        simp [resultAt, hle]
      · rw [ihrec, List.length_cons,
          show k + (ts.length + 1) = k + 1 + ts.length by omega]
      · rw [ihlim, h1lim]
      · intro hcap
        rw [List.length_cons] at hcap
        exact absurd hcap (by omega)
      · intro tl htl hover
        cases ts with
        | nil =>
          have htlt : tl = t := by simpa using htl.symm
          subst htlt
          show st1.blocklist.lookup id = some (tl + 300000)
          rw [h1bl]
          exact lookup_setA_self _ id _
        | cons t1 ts2 =>
          have htl2 : (t1 :: ts2).getLast? = some tl := by
            simpa [List.getLast?_cons_cons] using htl
          apply ihlast tl htl2
          simp only [List.length_cons]
          omega

end AdvancedRateLimiter

/-! ### Claim C7: the rolling window -/

/-- Claim C7: from a fresh identity in the session scope with the default
limits (50 requests per one-hour window), 51 calls all within one window
of the first call time `t0` behave as follows: the first 50 are allowed,
the 51st is denied with a 300-second retry-after hint and remaining 0,
the identity's blocklist entry is set to five minutes after the 51st
call, and a further call issued strictly more than the window duration
after `t0` is admitted and starts a fresh window with count 1 stamped at
its own time. -/
theorem rateLimiter_rolling_window (st : AdvancedRateLimiter.RLState)
    (id : String) (t0 : Nat) (ts : List Nat) (t2 : Nat)
    (hfresh : st.bySession.lookup id = none)
    (hlim : st.limits.perSession = ⟨50, 3600000⟩)
    (hlen : ts.length = 50)
    (hin : ∀ t ∈ ts, t - t0 ≤ 3600000)
    (hout : 3600000 < t2 - t0) :
    (∀ r ∈ (AdvancedRateLimiter.checkMany st id .session (t0 :: ts)).1.take 50,
      r.allowed = true) ∧
    (AdvancedRateLimiter.checkMany st id .session (t0 :: ts)).1.drop 50 =
      [⟨false, 0, some 300⟩] ∧
    (∀ tl, ts.getLast? = some tl →
      (AdvancedRateLimiter.checkMany st id .session (t0 :: ts)).2.blocklist.lookup
          id = some (tl + 300000)) ∧
    (AdvancedRateLimiter.checkLimit
        (AdvancedRateLimiter.checkMany st id .session (t0 :: ts)).2
        id .session t2).1.allowed = true ∧
    (AdvancedRateLimiter.trackerOf
        (AdvancedRateLimiter.checkLimit
          (AdvancedRateLimiter.checkMany st id .session (t0 :: ts)).2
          id .session t2).2 .session).lookup id = some ⟨1, t2, 50⟩ := by
  have hlimOf : AdvancedRateLimiter.limitOf st.limits .session = ⟨50, 3600000⟩ :=
    hlim
  have hstep := AdvancedRateLimiter.checkLimit_fresh st id .session t0 hfresh
    (by rw [hlimOf]; decide)
  rw [hlimOf] at hstep
  norm_num at hstep
  set st1 := AdvancedRateLimiter.setTracker st .session
    (setA (AdvancedRateLimiter.trackerOf st .session) id ⟨1, t0, 50⟩) with hst1
  have h1rec : (AdvancedRateLimiter.trackerOf st1 .session).lookup id =
      some ⟨1, t0, 50⟩ := by
    rw [hst1, AdvancedRateLimiter.trackerOf_setTracker_self]
    exact lookup_setA_self _ id _
  have h1lim : st1.limits = st.limits :=
    AdvancedRateLimiter.setTracker_limits _ _ _
  have h1W : (AdvancedRateLimiter.limitOf st1.limits .session).window = 3600000 := by
    rw [h1lim, hlimOf]
  obtain ⟨ihres, ihrec, ihlim, ihbl, ihlast⟩ :=
    AdvancedRateLimiter.checkMany_within id .session t0 50 3600000 ts st1 1
      h1W h1rec hin
  have hcm : AdvancedRateLimiter.checkMany st id .session (t0 :: ts) =
      ((⟨true, 49, none⟩ : AdvancedRateLimiter.CheckResult) ::
        (AdvancedRateLimiter.checkMany st1 id .session ts).1,
       (AdvancedRateLimiter.checkMany st1 id .session ts).2) := by
    simp only [AdvancedRateLimiter.checkMany]
    rw [hstep]
  have hres51 : (AdvancedRateLimiter.checkMany st id .session (t0 :: ts)).1 =
      (⟨true, 49, none⟩ : AdvancedRateLimiter.CheckResult) ::
        (List.range 50).map (fun i => AdvancedRateLimiter.resultAt 50 (1 + i + 1)) := by
    rw [hcm, ihres, hlen]
  refine ⟨?_, ?_, ?_, ?_, ?_⟩
  · intro r hr
    rw [hres51] at hr
    rw [List.take_succ_cons] at hr
    rw [← List.map_take, List.range_succ,
      List.take_left' (by rw [List.length_range])] at hr
    rcases List.mem_cons.1 hr with h | h
    · rw [h]
    · rcases List.mem_map.1 h with ⟨i, hi, rfl⟩
      rw [List.mem_range] at hi
      simp only [AdvancedRateLimiter.resultAt]
      exact decide_eq_true (by omega)
  · rw [hres51, List.drop_succ_cons, ← List.map_drop, List.range_succ,
      List.drop_left' (by rw [List.length_range]), List.map_cons, List.map_nil]
    rfl
  · intro tl htl
    rw [hcm]
    exact ihlast tl htl (by omega)
  · rw [hcm]
    have hfinlim : (AdvancedRateLimiter.limitOf
        (AdvancedRateLimiter.checkMany st1 id .session ts).2.limits .session) =
        ⟨50, 3600000⟩ := by
      rw [ihlim, h1lim, hlimOf]
    have hfinrec := ihrec
    rw [hlen] at hfinrec
    rw [AdvancedRateLimiter.checkLimit_reset _ id .session t2 51 t0 50 hfinrec
      (by rw [hfinlim]; simpa using hout) (by rw [hfinlim]; decide)]
  · rw [hcm]
    have hfinlim : (AdvancedRateLimiter.limitOf
        (AdvancedRateLimiter.checkMany st1 id .session ts).2.limits .session) =
        ⟨50, 3600000⟩ := by
      rw [ihlim, h1lim, hlimOf]
    have hfinrec := ihrec
    rw [hlen] at hfinrec
    rw [AdvancedRateLimiter.checkLimit_reset _ id .session t2 51 t0 50 hfinrec
      (by rw [hfinlim]; simpa using hout) (by rw [hfinlim]; decide)]
    rw [AdvancedRateLimiter.trackerOf_setTracker_self]
    have : (AdvancedRateLimiter.limitOf
        (AdvancedRateLimiter.checkMany st1 id .session ts).2.limits
          .session).requests = 50 := by rw [hfinlim]
    rw [this]
    exact lookup_setA_self _ id _

/-- Witness for `rateLimiter_rolling_window`: the freshly constructed
limiter, identity `"s"`, 51 calls all at time 0 and a final call at time
3600001. -/
theorem rateLimiter_rolling_window_witness :
    (∀ r ∈ (AdvancedRateLimiter.checkMany AdvancedRateLimiter.initialState "s"
        .session (0 :: List.replicate 50 0)).1.take 50, r.allowed = true) ∧
    (AdvancedRateLimiter.checkMany AdvancedRateLimiter.initialState "s"
        .session (0 :: List.replicate 50 0)).1.drop 50 = [⟨false, 0, some 300⟩] ∧
    (∀ tl, (List.replicate 50 0).getLast? = some tl →
      (AdvancedRateLimiter.checkMany AdvancedRateLimiter.initialState "s"
          .session (0 :: List.replicate 50 0)).2.blocklist.lookup "s" =
        some (tl + 300000)) ∧
    (AdvancedRateLimiter.checkLimit
        (AdvancedRateLimiter.checkMany AdvancedRateLimiter.initialState "s"
          .session (0 :: List.replicate 50 0)).2 "s" .session 3600001).1.allowed =
      true ∧
    (AdvancedRateLimiter.trackerOf
        (AdvancedRateLimiter.checkLimit
          (AdvancedRateLimiter.checkMany AdvancedRateLimiter.initialState "s"
            .session (0 :: List.replicate 50 0)).2 "s" .session 3600001).2
        .session).lookup "s" = some ⟨1, 3600001, 50⟩ :=
  rateLimiter_rolling_window AdvancedRateLimiter.initialState "s" 0
    (List.replicate 50 0) 3600001 rfl rfl (by decide)
    (by decide) (by decide)

/-! ### Claims C8 and C9: cleanup sweep scope and denied-call effects -/

/-- Claim C8 (counterexample): a user-scope window record whose one-hour
window has long lapsed survives the cleanup sweep untouched — the sweep
only purges the session tracker (and the blocklist), not all three
scopes. -/
theorem cleanup_user_scope_cex :
    (AdvancedRateLimiter.cleanup
        ⟨AdvancedRateLimiter.defaultLimits, [("u", ⟨5, 0, 100⟩)], [], [], []⟩
        7200000).byUser = [("u", ⟨5, 0, 100⟩)] ∧
    AdvancedRateLimiter.defaultLimits.perUser.window < 7200000 - 0 := by
  decide

/-- Claim C8 (amended): every cleanup run removes exactly the session-scope
window records whose window duration has lapsed and the blocklist entries
whose cool-down has passed; the user- and address-scope trackers (and the
limits) are left entirely untouched. -/
theorem cleanup_behavior (st : AdvancedRateLimiter.RLState) (now : Nat) :
    (∀ k r, (k, r) ∈ (AdvancedRateLimiter.cleanup st now).bySession ↔
      ((k, r) ∈ st.bySession ∧
        now - r.firstRequest ≤ st.limits.perSession.window)) ∧
    (∀ k b, (k, b) ∈ (AdvancedRateLimiter.cleanup st now).blocklist ↔
      ((k, b) ∈ st.blocklist ∧ now ≤ b)) ∧
    (AdvancedRateLimiter.cleanup st now).byUser = st.byUser ∧
    (AdvancedRateLimiter.cleanup st now).byIP = st.byIP ∧
    (AdvancedRateLimiter.cleanup st now).limits = st.limits := by
  refine ⟨?_, ?_, rfl, rfl, rfl⟩
  · intro k r
    simp [AdvancedRateLimiter.cleanup, List.mem_filter, not_lt]
  · intro k b
    simp [AdvancedRateLimiter.cleanup, List.mem_filter, not_lt]

/-- Claim C9: a `checkLimit` call on an existing, unexpired window always
increments the stored request count — denied calls included — and every
denied call (re-)writes the identity's blocklist entry to five minutes
after that call, pushing the unblock instant forward; only an allowed
call leaves the blocklist untouched. -/
theorem checkLimit_denied_effects (st : AdvancedRateLimiter.RLState)
    (id : String) (sc : AdvancedRateLimiter.Scope) (now k t0 d : Nat)
    (hrec : (AdvancedRateLimiter.trackerOf st sc).lookup id = some ⟨k, t0, d⟩)
    (hwin : now - t0 ≤ (AdvancedRateLimiter.limitOf st.limits sc).window) :
    (AdvancedRateLimiter.trackerOf
        (AdvancedRateLimiter.checkLimit st id sc now).2 sc).lookup id =
      some ⟨k + 1, t0, d⟩ ∧
    (AdvancedRateLimiter.checkLimit st id sc now).1.allowed = decide (k + 1 ≤ d) ∧
    (d < k + 1 →
      ((AdvancedRateLimiter.checkLimit st id sc now).2.blocklist.lookup id =
          some (now + 300000) ∧
        (AdvancedRateLimiter.checkLimit st id sc now).1.retryAfter = some 300)) ∧
    (k + 1 ≤ d →
      (AdvancedRateLimiter.checkLimit st id sc now).2.blocklist = st.blocklist) := by
  by_cases hle : k + 1 ≤ d
  · rw [AdvancedRateLimiter.checkLimit_within_allowed st id sc now k t0 d hrec hwin hle]
    refine ⟨?_, by simp [hle], fun hgt => absurd hle (by omega), fun _ =>
      AdvancedRateLimiter.setTracker_blocklist st sc _⟩
    rw [AdvancedRateLimiter.trackerOf_setTracker_self]
    exact lookup_setA_self _ id _
  · have hgt : d < k + 1 := by omega
    rw [AdvancedRateLimiter.checkLimit_within_denied st id sc now k t0 d hrec hwin hgt]
    refine ⟨?_, by simp [hle], fun _ => ⟨?_, rfl⟩, fun hle2 => absurd hle2 hle⟩
    · rw [AdvancedRateLimiter.trackerOf_withBlocklist,
        AdvancedRateLimiter.trackerOf_setTracker_self]
      exact lookup_setA_self _ id _
    · exact lookup_setA_self _ id _

/-- Witness for `checkLimit_denied_effects`: a session window already at its
capacity of 50; the next call at time 10 is denied, the count grows to 51
and the blocklist entry becomes 300010. -/
theorem checkLimit_denied_effects_witness :
    ((AdvancedRateLimiter.trackerOf
        (AdvancedRateLimiter.checkLimit
          ⟨AdvancedRateLimiter.defaultLimits, [], [("s", ⟨50, 0, 50⟩)], [], []⟩
          "s" .session 10).2 .session).lookup "s" = some ⟨51, 0, 50⟩ ∧
      (AdvancedRateLimiter.checkLimit
        ⟨AdvancedRateLimiter.defaultLimits, [], [("s", ⟨50, 0, 50⟩)], [], []⟩
        "s" .session 10).1.allowed = decide (50 + 1 ≤ 50) ∧
      (50 < 50 + 1 →
        ((AdvancedRateLimiter.checkLimit
            ⟨AdvancedRateLimiter.defaultLimits, [], [("s", ⟨50, 0, 50⟩)], [], []⟩
            "s" .session 10).2.blocklist.lookup "s" = some (10 + 300000) ∧
          (AdvancedRateLimiter.checkLimit
            ⟨AdvancedRateLimiter.defaultLimits, [], [("s", ⟨50, 0, 50⟩)], [], []⟩
            "s" .session 10).1.retryAfter = some 300)) ∧
      (50 + 1 ≤ 50 →
        (AdvancedRateLimiter.checkLimit
          ⟨AdvancedRateLimiter.defaultLimits, [], [("s", ⟨50, 0, 50⟩)], [], []⟩
          "s" .session 10).2.blocklist =
          (⟨AdvancedRateLimiter.defaultLimits, [], [("s", ⟨50, 0, 50⟩)], [], []⟩ :
            AdvancedRateLimiter.RLState).blocklist)) :=
  checkLimit_denied_effects
    ⟨AdvancedRateLimiter.defaultLimits, [], [("s", ⟨50, 0, 50⟩)], [], []⟩
    "s" .session 10 50 0 50 (by decide) (by decide)

end ChatCore
